import Mathlib

/-
Verification of the cortex-annotate annotation core.

This file gives a shallow embedding, in Lean 4, of the annotation-editing
state machine of the cortex-annotate repository
(src/cortexannotate/_figure.py and src/cortexannotate/_core.py) and proves
properties of it.

Modelling conventions:
  * Machine floats are modelled as exact rationals (ℚ); "within floating
    point tolerance" becomes exact equality over ℚ.
  * numpy `N x 2` matrices of points are modelled as `List (ℚ × ℚ)`.
  * Python `dict`s are modelled as association lists whose keys are unique
    by construction (`dset` replaces in place, preserving insertion order,
    exactly like `dict.__setitem__`).
  * A Python value that may be `None` is modelled as an `Option`.
  * Python code that can raise an exception is modelled with `Option`
    (`none` = some exception was raised) or `Except String` when the
    message matters.
  * Canvas raster drawing, file paths, and widget wiring are display-side
    effects with no bearing on the annotation state; they are not part of
    the embedding.  `FigurePanel.write_message` is modelled by storing the
    message string in the panel state.
-/

namespace CortexAnnotate


abbrev Point : Type := ℚ × ℚ

abbrev PointSeq : Type := List Point

/-- Cursor position flag of the figure panel (`self.cursor_position`). -/
inductive Cursor where
  | head : Cursor
  | tail : Cursor
deriving DecidableEq, Repr

/-- Generic dict update: replace the value at an existing key in place, or
append a fresh key at the end, like Python `d[k] = v`. -/
def dset {κ ν : Type} [BEq κ] : List (κ × ν) → κ → ν → List (κ × ν)
  | [], k, v => [(k, v)]
  | (k', v') :: rest, k, v =>
    if k' == k then (k, v) :: rest else (k', v') :: dset rest k v

/-- The `self.annotations` dict of the figure panel: values may themselves be
the Python value `None` (an annotation discarded by `pop_point`). -/
abbrev AnnotMap : Type := List (String × Option PointSeq)

/-- Python `d.get(k)` on an `AnnotMap`: a missing key and a stored `None`
are indistinguishable. -/
def aget (m : AnnotMap) (k : String) : Option PointSeq :=
  (List.lookup k m).join

/-- The figure panel state (the fields of `FigurePanel.__init__` that the
annotation-editing core reads or writes).  `figw`/`figh` are the configured
`display.figsize` used by `cellshape`. -/
structure FigurePanel where
  imagesize : ℚ
  figw : ℚ
  figh : ℚ
  xlim : Option (ℚ × ℚ)
  ylim : Option (ℚ × ℚ)
  grid_shape : ℕ × ℕ
  foreground : Option String
  annotations : AnnotMap
  fixed_heads : Option (String → Option Point)
  fixed_tails : Option (String → Option Point)
  annotation_types : Option (String → Option String)
  cursor_position : Cursor
  ignore_input : Bool
  message : Option String

/-- Model of `FigurePanel.cellshape`: the `(width, height)` in pixels of one grid
cell; the height preserves the configured figure aspect ratio. -/
def cellshape (p : FigurePanel) : ℚ × ℚ :=
  (p.imagesize, p.imagesize * p.figh / p.figw)

/-- The effective x-limits: `(0, imwidth)` when `self.xlim is None`. -/
def xlimOf (p : FigurePanel) : ℚ × ℚ :=
  match p.xlim with
  | none => (0, (cellshape p).1)
  | some l => l

/-- The effective y-limits: `(0, imheight)` when `self.ylim is None`. -/
def ylimOf (p : FigurePanel) : ℚ × ℚ :=
  match p.ylim with
  | none => (0, (cellshape p).2)
  | some l => l

/-- The pointwise core of `FigurePanel.figure_to_image`: scale a figure
point into the pixel frame of a single cell and invert the y-axis. -/
def fig2imPt (p : FigurePanel) (pt : Point) : Point :=
  ((pt.1 - (xlimOf p).1) * ((cellshape p).1 / ((xlimOf p).2 - (xlimOf p).1)),
   (cellshape p).2 -
     (pt.2 - (ylimOf p).1) * ((cellshape p).2 / ((ylimOf p).2 - (ylimOf p).1)))

/-- Translate a cell-frame pixel point by the offset of cell
`(column ii, row jj)` in the tiled canvas. -/
def cellOffset (p : FigurePanel) (ii jj : ℕ) (q : Point) : Point :=
  (q.1 + (ii : ℚ) * (cellshape p).1, q.2 + (jj : ℚ) * (cellshape p).2)

/-- Model of `FigurePanel.figure_to_image` on an `N x 2` matrix: one translated copy
of the converted path per grid cell, columns in the outer loop exactly as in
the source list comprehension. -/
def figure_to_image_cells (p : FigurePanel) (pts : PointSeq) : List PointSeq :=
  (((List.range p.grid_shape.2).map (fun ii =>
      (List.range p.grid_shape.1).map (fun jj =>
        (pts.map (fig2imPt p)).map (cellOffset p ii jj))))).flatten

/-- Python float `%`: `a - b * ⌊a / b⌋` (the sign of the result follows the
divisor). -/
def qmod (a b : ℚ) : ℚ := a - b * ⌊a / b⌋

/-- The pointwise core of `FigurePanel.image_to_figure` on matrix input:
reduce modulo the cell size, invert the y-axis, then undo the affine
scaling. -/
def im2figPt (p : FigurePanel) (pt : Point) : Point :=
  (qmod pt.1 (cellshape p).1 *
     (((xlimOf p).2 - (xlimOf p).1) / (cellshape p).1) + (xlimOf p).1,
   ((cellshape p).2 - qmod pt.2 (cellshape p).2) *
     (((ylimOf p).2 - (ylimOf p).1) / (cellshape p).2) + (ylimOf p).1)

/-- Model of `FigurePanel.image_to_figure` on an `N x 2` matrix. -/
def image_to_figure_core (p : FigurePanel) (pts : PointSeq) : PointSeq :=
  pts.map (im2figPt p)

/-- The numpy input accepted by the two coordinate mappings: either a 1-D
point vector or an `N x 2` matrix. -/
inductive NpPoints where
  | vec : Point → NpPoints
  | mat : PointSeq → NpPoints

/-- The numpy value returned by the two coordinate mappings: a single point
matrix, or one matrix per grid cell. -/
inductive NpResult where
  | one : PointSeq → NpResult
  | many : List PointSeq → NpResult
deriving DecidableEq

/-- Model of `FigurePanel.figure_to_image` with its shape dispatch: a 1-D input is
wrapped as a one-row matrix and the first grid cell's matrix is returned
(`self.figure_to_image([points])[0]`); `none` models the `IndexError` when
the grid has no cells. -/
def figure_to_image (p : FigurePanel) : NpPoints → Option NpResult
  | NpPoints.vec pt =>
    ((figure_to_image_cells p [pt]).head?).map NpResult.one
  | NpPoints.mat pts => some (NpResult.many (figure_to_image_cells p pts))

/-- Model of `FigurePanel.image_to_figure` with its shape dispatch.  The 1-D branch
of the source reads `return self.figure_to_image([points])[0]`: it invokes
the forward mapping, not the inverse one. -/
def image_to_figure (p : FigurePanel) : NpPoints → Option NpResult
  | NpPoints.vec pt =>
    ((figure_to_image_cells p [pt]).head?).map NpResult.one
  | NpPoints.mat pts => some (NpResult.one (image_to_figure_core p pts))

/-- A concrete figure panel used to instantiate theorems: a 100-pixel
square cell, unit figure limits, and a 1×1 grid. -/
def testPanel : FigurePanel :=
  { imagesize := 100, figw := 1, figh := 1,
    xlim := some (0, 1), ylim := some (0, 1),
    grid_shape := (1, 1), foreground := none, annotations := [],
    fixed_heads := none, fixed_tails := none, annotation_types := none,
    cursor_position := Cursor.tail, ignore_input := false, message := none }

/-- Model of `FigurePanel.fixed_head` for an explicit name: reads the
`fixed_heads` dict.  The shape/finiteness guards of the source are
identically satisfied here because a stored point is always a finite
2-vector in the model. -/
def fixed_head (p : FigurePanel) (annot : String) : Option Point :=
  match p.fixed_heads with
  | none => none
  | some f => f annot

/-- Model of `FigurePanel.fixed_tail` for an explicit name. -/
def fixed_tail (p : FigurePanel) (annot : String) : Option Point :=
  match p.fixed_tails with
  | none => none
  | some f => f annot

/-- Model of `FigurePanel.annotation_type`: defaults to `"points"` when the types
dict is absent or has no entry for the name. -/
def annotation_type (p : FigurePanel) (annot : String) : String :=
  match p.annotation_types with
  | none => "points"
  | some f => (f annot).getD "points"

/-- Test used by `push_point`: `at in ('point', 'points')`. -/
def isPointType (t : String) : Bool := t == "point" || t == "points"

/-- Strip the reserved fixed head/tail rows from a stored sequence, as both
`push_point` and `pop_point` do (`fh = points[[0]]; points = points[1:]`,
then `ft = points[[-1]]; points = points[:-1]`).  `none` models the
`IndexError` raised when an indexing operation hits an empty array. -/
def stripFixed (fhq ftq : Bool) : PointSeq → Option (PointSeq × PointSeq × PointSeq)
  | [] => if fhq || ftq then none else some ([], [], [])
  | q :: rest =>
    let s := if fhq then ([q], rest) else ([], q :: rest)
    if ftq then
      match s.2.getLast? with
      | none => none
      | some l => some (s.1, s.2.dropLast, [l])
    else some (s.1, s.2, [])

/-- Python `self.annotations[k] = v`. -/
def setAnn (p : FigurePanel) (k : String) (v : Option PointSeq) : FigurePanel :=
  { p with annotations := dset p.annotations k v }

/-- Model of `FigurePanel.push_point`: insert a figure point at the cursor end of the
foreground annotation, re-attaching fixed head/tail at their reserved
slots; a point-type annotation is replaced by the single new point. -/
def push_point (p : FigurePanel) (x : Point) : Option FigurePanel :=
  match p.foreground with
  | none => some p
  | some fg =>
    match (aget p.annotations fg).getD [] with
    | [] =>
      some (setAnn p fg
        (some ((fixed_head p fg).toList ++ [x] ++ (fixed_tail p fg).toList)))
    | q :: rest =>
      match stripFixed (fixed_head p fg).isSome (fixed_tail p fg).isSome
          (q :: rest) with
      | none => none
      | some (fhl, free, ftl) =>
        let newpts :=
          if isPointType (annotation_type p fg) then [x]
          else if p.cursor_position = Cursor.head then fhl ++ [x] ++ free ++ ftl
          else fhl ++ free ++ [x] ++ ftl
        some (setAnn p fg (some newpts))

/-- Model of `FigurePanel.pop_point`: remove a point from the cursor end of the free
sub-sequence; when fewer than 2 free points remain before removal the whole
annotation is set to `None` (with a warning when it was completely
empty). -/
def pop_point (p : FigurePanel) : Option FigurePanel :=
  match p.foreground with
  | none => some p
  | some fg =>
    match aget p.annotations fg with
    | none => some p
    | some [] => some p
    | some (q :: rest) =>
      match stripFixed (fixed_head p fg).isSome (fixed_tail p fg).isSome
          (q :: rest) with
      | none => none
      | some (fhl, free, ftl) =>
        if free.length < 2 then some (setAnn p fg none)
        else
          let free2 := if p.cursor_position = Cursor.head then free.tail
                       else free.dropLast
          some (setAnn p fg (some (fhl ++ free2 ++ ftl)))

/-- Model of `FigurePanel.push_impoint`: convert the image point to figure
coordinates, then push. -/
def push_impoint (p : FigurePanel) (x : Point) : Option FigurePanel :=
  push_point p (im2figPt p x)

/-- Model of `FigurePanel.on_mouse_click`: ignored entirely while `ignore_input` is
set. -/
def on_mouse_click (p : FigurePanel) (x y : ℚ) : Option FigurePanel :=
  if p.ignore_input then some p else push_impoint p (x, y)

/-- Repeated `push_point` calls, first point first. -/
def pushList (p : FigurePanel) (xs : List Point) : Option FigurePanel :=
  xs.foldlM push_point p

/-- Observe the stored sequence of annotation `k` after an operation that
may have raised. -/
def annAfter (r : Option FigurePanel) (k : String) : Option (Option PointSeq) :=
  r.map (fun q => aget q.annotations k)

/-- Panel with one single-point foreground annotation and no fixed
endpoints. -/
def popPanel : FigurePanel :=
  { testPanel with
    foreground := some "B",
    annotations := [("B", some [((0 : ℚ), (0 : ℚ))])],
    annotation_types := some (fun n => if n = "B" then some "contour" else none) }

/-- Panel with a three-point free path used to instantiate
`pop_point_policy`. -/
def popPanelW : FigurePanel :=
  { testPanel with
    foreground := some "B",
    annotations :=
      [("B", some [((1 : ℚ), (1 : ℚ)), ((2 : ℚ), (2 : ℚ)), ((3 : ℚ), (3 : ℚ))])] }

/-- Panel with a point-type single-point foreground annotation. -/
def pointPanel : FigurePanel :=
  { testPanel with
    foreground := some "B",
    annotations := [("B", some [((0 : ℚ), (0 : ℚ))])],
    annotation_types := some (fun n => if n = "B" then some "point" else none) }

/-- Panel with a two-point contour-type foreground annotation. -/
def pathPanel : FigurePanel :=
  { testPanel with
    foreground := some "B",
    annotations := [("B", some [((1 : ℚ), (1 : ℚ)), ((2 : ℚ), (2 : ℚ))])],
    annotation_types := some (fun n => if n = "B" then some "contour" else none) }

/-- Panel with an empty point-type foreground annotation, no fixed
endpoints. -/
def pointPanel2 : FigurePanel :=
  { testPanel with
    foreground := some "B",
    annotations := [("B", some [])],
    annotation_types := some (fun n => if n = "B" then some "point" else none) }

/-- Panel with an empty point-type foreground annotation that has a fixed
head. -/
def pointFixedPanel : FigurePanel :=
  { testPanel with
    foreground := some "B",
    annotations := [("B", some [])],
    annotation_types := some (fun n => if n = "B" then some "point" else none),
    fixed_heads := some (fun n => if n = "B" then some ((5 : ℚ), (5 : ℚ)) else none) }

/-- A value of the per-target annotations ldict of `AnnotationState`:
either a still-uncached lazy delay, or a loaded value (which may be the
Python `None` left behind by a discarding pop). -/
inductive AnnVal where
  | lazyVal : AnnVal
  | loaded : Option PointSeq → AnnVal

/-- The per-target annotations dict, keyed by annotation name. -/
abbrev TargetAnnots : Type := List (String × AnnVal)

/-- The on-disk annotation files of one target, keyed by annotation name;
`none` is file absence.  Files of different targets live under different
target paths, so one target's store is independent of the others. -/
abbrev FileStore : Type := String → Option PointSeq

/-- One iteration of `AnnotationState.save_target_annotations`: skip lazy
values entirely; delete the file when the value is `None` or empty; else
write the sequence. -/
def saveOne (fs : FileStore) (e : String × AnnVal) : FileStore :=
  match e.2 with
  | AnnVal.lazyVal => fs
  | AnnVal.loaded none => fun n => if n = e.1 then none else fs n
  | AnnVal.loaded (some xs) =>
    if xs.length = 0 then fun n => if n = e.1 then none else fs n
    else fun n => if n = e.1 then some xs else fs n

/-- Model of `AnnotationState.save_target_annotations` for one target. -/
def save_target_annotations (annots : TargetAnnots) (fs : FileStore) :
    FileStore :=
  annots.foldl saveOne fs

/-- Model of `AnnotationState.load_target_annotation`: file absence loads as the
empty 0×2 matrix.  A present file always holds an N×2 matrix in the model,
so the invalid-shape fatal branch of the source is unreachable here. -/
def load_target_annot (fs : FileStore) (name : String) : PointSeq :=
  (fs name).getD []

/-- Concrete store contents used to instantiate `save_load_roundtrip`. -/
def demoAnnots : TargetAnnots :=
  [("A", AnnVal.loaded (some [((1 : ℚ), (2 : ℚ))])),
   ("B", AnnVal.loaded (some [])),
   ("C", AnnVal.lazyVal)]

/-- Image raster: a list of pixel rows. -/
abbrev Image (α : Type) : Type := List (List α)

/-- The `xlim`/`ylim` metadata of a rendered figure cell (the JSON
companion file content read back by `generate_grid`). -/
structure FigMeta where
  xlim : ℚ × ℚ
  ylim : ℚ × ℚ
deriving DecidableEq

/-- Model of `np.concatenate` of two rasters along axis 1: requires equal heights,
else raises. -/
def hconcat2 {α : Type} (a b : Image α) : Option (Image α) :=
  if a.length = b.length then some (List.zipWith (fun r s => r ++ s) a b)
  else none

/-- Model of `np.concatenate([...], axis=1)`: an empty list raises. -/
def hconcatImgs {α : Type} : List (Image α) → Option (Image α)
  | [] => none
  | i :: is => is.foldlM hconcat2 i

/-- Width of a raster: the length of its first pixel row. -/
def imgWidth {α : Type} (a : Image α) : ℕ := (a.head?.map List.length).getD 0

/-- Model of `np.concatenate` of two rasters along axis 0: requires equal widths,
else raises. -/
def vconcat2 {α : Type} (a b : Image α) : Option (Image α) :=
  if imgWidth a = imgWidth b then some (a ++ b) else none

/-- Model of `np.concatenate([...], axis=0)`: an empty list raises. -/
def vconcatImgs {α : Type} : List (Image α) → Option (Image α)
  | [] => none
  | i :: is => is.foldlM vconcat2 i

/-- The per-cell metadata comparison of `AnnotationState.generate_grid`
against cell `[0][0]`, with the source's error messages. -/
def checkCell (ann : String) (md0 md : FigMeta) : Except String Unit :=
  if md0.xlim ≠ md.xlim then
    Except.error ("not all figures have the same xlim for annotation " ++ ann)
  else if md0.ylim ≠ md.ylim then
    Except.error ("not all figures have the same ylim for annotation " ++ ann)
  else Except.ok ()

/-- The inner loop of the metadata check (`for (fig, md) in row`). -/
def checkRow {α : Type} (ann : String) (md0 : FigMeta) :
    List (Image α × FigMeta) → Except String Unit
  | [] => Except.ok ()
  | c :: rest =>
    match checkCell ann md0 c.2 with
    | Except.error e => Except.error e
    | Except.ok _ => checkRow ann md0 rest

/-- The outer loop of the metadata check (`for row in figdata`). -/
def checkGrid {α : Type} (ann : String) (md0 : FigMeta) :
    List (List (Image α × FigMeta)) → Except String Unit
  | [] => Except.ok ()
  | row :: rest =>
    match checkRow ann md0 row with
    | Except.error e => Except.error e
    | Except.ok _ => checkGrid ann md0 rest

/-- The inner `np.concatenate(..., axis=1)` applied to every grid row. -/
def concatRows {α : Type} :
    List (List (Image α × FigMeta)) → Option (List (Image α))
  | [] => some []
  | row :: rest =>
    match hconcatImgs (row.map Prod.fst), concatRows rest with
    | some img, some imgs => some (img :: imgs)
    | _, _ => none

/-- Model of `AnnotationState.generate_grid`, with the per-cell
`(image, metadata)` pairs delivered by the figure cache as input: verify
that every cell shares the metadata of cell `[0][0]` (raising the
source's RuntimeError otherwise), then tile the grid — cells of a row
concatenated horizontally, rows stacked vertically — and return the
composite together with the shared metadata.  The on-disk caching of the
result is not modelled. -/
def generate_grid {α : Type} (ann : String)
    (figdata : List (List (Image α × FigMeta))) :
    Except String (Image α × FigMeta) :=
  match figdata.head?.bind List.head? with
  | none => Except.error "IndexError: empty grid"
  | some c00 =>
    match checkGrid ann c00.2 figdata with
    | Except.error e => Except.error e
    | Except.ok _ =>
      match concatRows figdata with
      | none => Except.error "ValueError: grid cell shapes do not match"
      | some rows =>
        match vconcatImgs rows with
        | none => Except.error "ValueError: grid cell shapes do not match"
        | some grid => Except.ok (grid, c00.2)

/-- A 100×100 one-colour cell raster. -/
def cellImg (v : ℕ) : Image ℕ := List.replicate 100 (List.replicate 100 v)

/-- Shared metadata of the demo grid cells. -/
def demoMeta : FigMeta := FigMeta.mk (0, 1) (0, 1)

/-- A 2×1 grid (two rows, one column) of 100×100 cells. -/
def demoGrid : List (List (Image ℕ × FigMeta)) :=
  [[(cellImg 1, demoMeta)], [(cellImg 2, demoMeta)]]

/-- A Python style value: a number, a string, or a boolean.  (Python
booleans compare as the numbers 0/1 under `<`.) -/
inductive StyleVal where
  | num : ℚ → StyleVal
  | str : String → StyleVal
  | bool : Bool → StyleVal
deriving DecidableEq

/-- A style dict: a finite map over the five style keys. -/
abbrev StyleDict : Type := List (String × StyleVal)

/-- Python `d.get(k)` on a style dict. -/
def sget (d : StyleDict) (k : String) : Option StyleVal := List.lookup k d

/-- Python `dict.update`: entries of `u` set one by one. -/
def supdate (d u : StyleDict) : StyleDict :=
  u.foldl (fun acc kv => dset acc kv.1 kv.2) d

/-- Value of `AnnotationState.default_style`. -/
def default_style : StyleDict :=
  [("linewidth", StyleVal.num 1), ("linestyle", StyleVal.str "solid"),
   ("markersize", StyleVal.num 1), ("color", StyleVal.str "black"),
   ("visible", StyleVal.bool true)]

/-- Value of `AnnotationState.style_keys`. -/
def style_keys : List String := default_style.map Prod.fst

/-- The numeric view Python's `<` takes of a style value (a boolean is
0/1; comparing a string raises a TypeError). -/
def styleNum : StyleVal → Option ℚ
  | StyleVal.num q => some q
  | StyleVal.bool b => some (if b then 1 else 0)
  | StyleVal.str _ => none

/-- The string a style value formats as inside an f-string message. -/
def showVal : StyleVal → String
  | StyleVal.num q => toString q
  | StyleVal.str s => s
  | StyleVal.bool b => if b then "True" else "False"

/-- The key scan of `AnnotationState.fix_style`.  The source message is
the literal text `fix_style given invalid key {k}` — the f-prefix is
missing in the source, so the key is not interpolated. -/
def checkKeys (d : StyleDict) : Except String Unit :=
  match d.find? (fun kv => ! style_keys.contains kv.1) with
  | some _ => Except.error "fix_style given invalid key \x7bk\x7d"
  | none => Except.ok ()

/-- The `linewidth`/`markersize` range check of `fix_style`: values below
0 or above 20 are rejected — zero itself passes. -/
def checkSizeKey (d : StyleDict) (key : String) : Except String Unit :=
  match sget d key with
  | none => Except.ok ()
  | some v =>
    match styleNum v with
    | none => Except.error ("TypeError: bad " ++ key)
    | some q =>
      if q < 0 ∨ q > 20 then
        Except.error ("fix_style given bad " ++ key ++ ": " ++ showVal v)
      else Except.ok ()

/-- The admissible linestyles. -/
def linestyles : List String := ["solid", "dashed", "dot-dashed", "dotted"]

/-- The `linestyle` check of `fix_style`.  The source's error branch
interpolates the variable `lw` (a copy-paste slip): when `linewidth` is
present its value is reported, otherwise the lookup of `lw` itself raises
a NameError. -/
def checkLinestyle (d : StyleDict) : Except String Unit :=
  match sget d "linestyle" with
  | none => Except.ok ()
  | some v =>
    let ok := match v with
      | StyleVal.str s => linestyles.contains s
      | _ => false
    if ok then Except.ok ()
    else
      match sget d "linewidth" with
      | some lw => Except.error ("fix_style given bad linewidth: " ++ showVal lw)
      | none => Except.error "NameError: name lw is not defined"

/-- The `color` check of `fix_style`: `mpl.colors.to_hex` is the external
collaborator `toHex`; on success the hex string replaces the stored color
value in place. -/
def checkColor (toHex : StyleVal → Option String) (d : StyleDict) :
    Except String StyleDict :=
  match sget d "color" with
  | none => Except.ok d
  | some v =>
    match toHex v with
    | none => Except.error "fix_style given bad color: None"
    | some hex => Except.ok (dset d "color" (StyleVal.str hex))

/-- The `visible` check of `fix_style`: must be a bool. -/
def checkVisible (d : StyleDict) : Except String Unit :=
  match sget d "visible" with
  | none => Except.ok ()
  | some (StyleVal.bool _) => Except.ok ()
  | some v => Except.error ("fix_style given bad visible: " ++ showVal v)

/-- Model of `AnnotationState.fix_style`: validate the keys and each value, in the
source's order, returning the (possibly color-normalized) dict. -/
def fix_style (toHex : StyleVal → Option String) (d : StyleDict) :
    Except String StyleDict :=
  match checkKeys d with
  | Except.error e => Except.error e
  | Except.ok _ =>
    match checkSizeKey d "linewidth" with
    | Except.error e => Except.error e
    | Except.ok _ =>
      match checkLinestyle d with
      | Except.error e => Except.error e
      | Except.ok _ =>
        match checkColor toHex d with
        | Except.error e => Except.error e
        | Except.ok d2 =>
          match checkSizeKey d2 "markersize" with
          | Except.error e => Except.error e
          | Except.ok _ =>
            match checkVisible d2 with
            | Except.error e => Except.error e
            | Except.ok _ => Except.ok d2

/-- A fixed-head/fixed-tail spec of an annotation definition: the
required annotation names and the user-supplied derivation collaborator
`calculate(target, found)` (an exception is an `Except.error`). -/
structure FixedSpec where
  requires : List String
  calculate : String → List (String × PointSeq) → Except String Point

/-- A configuration annotation definition (name-keyed in
`ToolConfig.annotations`): type tag, optional fixed endpoints, and plot
style options.  Grid layout and filter are not needed by the modelled
operations. -/
structure AnnotDef where
  atype : String
  fixed_head : Option FixedSpec
  fixed_tail : Option FixedSpec
  plot_options : StyleDict

/-- The configuration slice consumed by `style()` and
`refresh_figure`. -/
structure ToolConfig where
  display_plot_options : StyleDict
  display_fg_options : StyleDict
  annotations : List (String × AnnotDef)
  builtin_plot_options : List (String × StyleDict)

/-- Model of `config.annotation_types` as derived from the annotation
definitions. -/
def annotationTypesOf (cfg : ToolConfig) : String → Option String :=
  fun n => (List.lookup n cfg.annotations).map AnnotDef.atype

/-- The layered style merge at the end of `AnnotationState.style`:
built-in default → display plot defaults → foreground defaults (key
`None`) or the annotation's own plot options → the user preference
override.  `none` is the KeyError raised when the name is neither a
configured nor a builtin annotation. -/
def reify_style (cfg : ToolConfig) (annot : Option String)
    (prefs : StyleDict) : Option StyleDict :=
  let rval := supdate default_style cfg.display_plot_options
  match annot with
  | none => some (supdate (supdate rval cfg.display_fg_options) prefs)
  | some a =>
    match List.lookup a cfg.annotations with
    | some ad => some (supdate (supdate rval ad.plot_options) prefs)
    | none =>
      match List.lookup a cfg.builtin_plot_options with
      | some po => some (supdate (supdate rval po) prefs)
      | none => none

/-- The per-annotation style override map of the preferences, keyed by
annotation name with `None` for the foreground style. -/
abbrev PrefStyles : Type := List (Option String × StyleDict)

/-- The three call shapes of `AnnotationState.style`: no-arg read, a
single dict argument, or key/value pairs. -/
inductive StyleArgs where
  | read : StyleArgs
  | setAll : StyleDict → StyleArgs
  | setKV : List (String × StyleVal) → StyleArgs

/-- Model of `AnnotationState.style`: returns the updated preference map together
with the fully reified style.  (On an error the source may have already
mutated the preference dict in place; only the success path is used by
the theorems below.) -/
def styleFn (cfg : ToolConfig) (toHex : StyleVal → Option String)
    (styles : PrefStyles) (annot : Option String) :
    StyleArgs → Except String (PrefStyles × StyleDict)
  | StyleArgs.read =>
    let prefs := (List.lookup annot styles).getD []
    match reify_style cfg annot prefs with
    | none => Except.error "KeyError"
    | some r => Except.ok (styles, r)
  | StyleArgs.setAll d =>
    match fix_style toHex d with
    | Except.error e => Except.error e
    | Except.ok d2 =>
      match reify_style cfg annot d2 with
      | none => Except.error "KeyError"
      | some r => Except.ok (dset styles annot d2, r)
  | StyleArgs.setKV kvs =>
    let update := kvs.foldl (fun acc kv => dset acc kv.1 kv.2) []
    match fix_style toHex update with
    | Except.error e => Except.error e
    | Except.ok u =>
      let prefs := (List.lookup annot styles).getD []
      let prefs2 := supdate prefs u
      match reify_style cfg annot prefs2 with
      | none => Except.error "KeyError"
      | some r => Except.ok (dset styles annot prefs2, r)

/-- Does this annotation definition declare `annot` among the requires of
its fixed head or tail?  (The dependant scan of `refresh_figure`.) -/
def dependsOn (annot : String) (ad : AnnotDef) : Bool :=
  (match ad.fixed_head with
   | none => false
   | some f => f.requires.contains annot) ||
  (match ad.fixed_tail with
   | none => false
   | some f => f.requires.contains annot)

/-- The missing/found loop of `refresh_figure`: for each required name,
`targ_annots.get(r, ())`; a stored Python `None` value would make
`len(xy)` raise a TypeError (modelled as `none`). -/
def collectReqs (ta : AnnotMap) : List String →
    Option (List String × List (String × PointSeq))
  | [] => some ([], [])
  | r :: rs =>
    match List.lookup r ta with
    | some none => none
    | found =>
      let xy := (found.join).getD []
      match collectReqs ta rs with
      | none => none
      | some (ms, fs) =>
        if xy.length = 0 then some (r :: ms, fs)
        else some (ms, (r, xy) :: fs)

/-- Evaluate one optional fixed spec via its derivation collaborator. -/
def evalFixed (target : String) (found : List (String × PointSeq)) :
    Option FixedSpec → Except String (Option Point)
  | none => Except.ok none
  | some f => (f.calculate target found).map some

/-- Model of `AnnotationTool.refresh_figure`, annotation-state portion: scan for
non-empty dependants of the selected annotation; otherwise resolve the
fixed head/tail requirements, either reporting the missing names or
calling the derivation functions (an exception becomes the error
message).  The panel then receives the target's annotations, the
annotation types, the fixed head/tail entries for the selected
annotation only, the new foreground, `ignore_input` set exactly when an
error blocks editing, and the message.  The grid raster drawing of the
source is display-only and not modelled; `none` is a crash (KeyError on
an unknown annotation, or TypeError from a discarded `None`
sequence). -/
def refresh_figure (cfg : ToolConfig) (target : String) (ta : AnnotMap)
    (annot : String) (p : FigurePanel) : Option FigurePanel :=
  let deps := cfg.annotations.filterMap (fun nd =>
    match aget ta nd.1 with
    | none => none
    | some xy =>
      if xy.length = 0 then none
      else if dependsOn annot nd.2 then some nd.1 else none)
  let outcome : Option (Option String × Option Point × Option Point) :=
    if 0 < deps.length then
      some (some ("The following annotations are dependant on the annotation "
        ++ annot ++ ": " ++ String.intercalate ", " deps
        ++ ". Please select an annotation that does not depend on other"
        ++ " existing annotations."), none, none)
    else
      match List.lookup annot cfg.annotations with
      | none => none
      | some ad =>
        let reqs := (match ad.fixed_head with
            | none => []
            | some f => f.requires) ++
          (match ad.fixed_tail with
            | none => []
            | some f => f.requires)
        match collectReqs ta reqs with
        | none => none
        | some (missing, found) =>
          if missing.length = 0 then
            match evalFixed target found ad.fixed_head,
                evalFixed target found ad.fixed_tail with
            | Except.ok fh, Except.ok ft => some (none, fh, ft)
            | Except.error e, _ =>
              some (some ("Error generating fixed points:\n  " ++ e),
                none, none)
            | _, Except.error e =>
              some (some ("Error generating fixed points:\n  " ++ e),
                none, none)
          else
            some (some ("The following annotations are required:\n  "
              ++ String.intercalate ", " missing), none, none)
  match outcome with
  | none => none
  | some (err, fh, ft) =>
    some { p with
      annotations := ta,
      annotation_types := some (annotationTypesOf cfg),
      ignore_input := err.isSome,
      fixed_heads := some (fun n => if n = annot then fh else none),
      fixed_tails := some (fun n => if n = annot then ft else none),
      foreground := some annot,
      message := err }

/-- The two-annotation configuration of the end-to-end scenario: `A` a
free path, `B` a path whose fixed head requires `A` with derivation
function `dfn`. -/
def cfgAB (dfn : String → List (String × PointSeq) → Except String Point) :
    ToolConfig :=
  { display_plot_options := [], display_fg_options := [],
    annotations :=
      [("A", AnnotDef.mk "contour" none none []),
       ("B", AnnotDef.mk "contour" (some (FixedSpec.mk ["A"] dfn)) none [])],
    builtin_plot_options := [] }

/-- A concrete derivation collaborator for witnesses. -/
def demoDerive : String → List (String × PointSeq) → Except String Point :=
  fun _ _ => Except.ok ((7 : ℚ), (8 : ℚ))

/-- The demo config for the style witnesses: no display overrides, no
configured annotations. -/
def demoCfg : ToolConfig :=
  { display_plot_options := [], display_fg_options := [],
    annotations := [], builtin_plot_options := [] }

/-- The demo color collaborator. -/
def demoHex : StyleVal → Option String := fun _ => some "#000000"

/-- Stored preference overrides with a foreground color override. -/
def demoStyles : PrefStyles :=
  [(none, [("color", StyleVal.str "#ff0000")])]

/-- The reified style after the demo 2-arg linestyle update. -/
def demoReified : StyleDict :=
  (reify_style demoCfg none
    (supdate ((List.lookup none demoStyles).getD [])
      [("linestyle", StyleVal.str "dashed")])).getD []

theorem range_one_eq : List.range 1 = [0] := rfl

theorem qmod_add_nat (u w : ℚ) (hw : 0 < w) (h0 : 0 ≤ u) (h1 : u < w)
    (n : ℕ) : qmod (u + (n : ℚ) * w) w = u := by
  have hwne : w ≠ 0 := ne_of_gt hw
  have hdiv : (u + (n : ℚ) * w) / w = u / w + (n : ℚ) := by
    field_simp
  have hfl : ⌊u / w⌋ = 0 := by
    rw [Int.floor_eq_zero_iff]
    exact ⟨div_nonneg h0 hw.le, (div_lt_one hw).mpr h1⟩
  rw [qmod, hdiv, Int.floor_add_nat, hfl]
  push_cast
  ring

theorem im2fig_fig2im_pt (p : FigurePanel) (x0 x1 y0 y1 : ℚ)
    (him : 0 < p.imagesize) (hfw : 0 < p.figw) (hfh : 0 < p.figh)
    (hx : p.xlim = some (x0, x1)) (hy : p.ylim = some (y0, y1))
    (hx01 : x0 < x1) (hy01 : y0 < y1) (ii jj : ℕ) (pt : Point)
    (hp1 : x0 < pt.1) (hp2 : pt.1 < x1) (hp3 : y0 < pt.2) (hp4 : pt.2 < y1) :
    im2figPt p (cellOffset p ii jj (fig2imPt p pt)) = pt := by
  obtain ⟨px, py⟩ := pt
  simp only at hp1 hp2 hp3 hp4
  have hw : 0 < (cellshape p).1 := him
  have hh : 0 < (cellshape p).2 := div_pos (mul_pos him hfh) hfw
  have hwne : (cellshape p).1 ≠ 0 := ne_of_gt hw
  have hhne : (cellshape p).2 ≠ 0 := ne_of_gt hh
  have hxne : x1 - x0 ≠ 0 := (sub_pos.mpr hx01).ne'
  have hyne : y1 - y0 ≠ 0 := (sub_pos.mpr hy01).ne'
  have hxl : xlimOf p = (x0, x1) := by simp [xlimOf, hx]
  have hyl : ylimOf p = (y0, y1) := by simp [ylimOf, hy]
  have hu0 : 0 < (px - x0) * ((cellshape p).1 / (x1 - x0)) :=
    mul_pos (by linarith) (div_pos hw (by linarith))
  have hu1 : (px - x0) * ((cellshape p).1 / (x1 - x0)) < (cellshape p).1 := by
    have hlt : (px - x0) * ((cellshape p).1 / (x1 - x0))
        < (x1 - x0) * ((cellshape p).1 / (x1 - x0)) :=
      mul_lt_mul_of_pos_right (by linarith) (div_pos hw (by linarith))
    have heq : (x1 - x0) * ((cellshape p).1 / (x1 - x0)) = (cellshape p).1 := by
      field_simp
    linarith
  have hv0 : 0 < (py - y0) * ((cellshape p).2 / (y1 - y0)) :=
    mul_pos (by linarith) (div_pos hh (by linarith))
  have hv1 : (py - y0) * ((cellshape p).2 / (y1 - y0)) < (cellshape p).2 := by
    have hlt : (py - y0) * ((cellshape p).2 / (y1 - y0))
        < (y1 - y0) * ((cellshape p).2 / (y1 - y0)) :=
      mul_lt_mul_of_pos_right (by linarith) (div_pos hh (by linarith))
    have heq : (y1 - y0) * ((cellshape p).2 / (y1 - y0)) = (cellshape p).2 := by
      field_simp
    linarith
  simp only [fig2imPt, cellOffset, im2figPt, hxl, hyl]
  rw [qmod_add_nat _ _ hw hu0.le hu1,
      qmod_add_nat _ _ hh (by linarith) (by linarith)]
  rw [Prod.mk.injEq]
  constructor
  · field_simp
  · field_simp

/-- C3: for every N×2 matrix of figure-space points strictly inside a
cell's bounds and every grid cell, `image_to_figure` applied to the output
of `figure_to_image` for that cell returns the original points exactly
(floats modelled as exact rationals, so the floating-point tolerance is
met by exact equality). -/
theorem figure_image_roundtrip (p : FigurePanel) (x0 x1 y0 y1 : ℚ)
    (him : 0 < p.imagesize) (hfw : 0 < p.figw) (hfh : 0 < p.figh)
    (hx : p.xlim = some (x0, x1)) (hy : p.ylim = some (y0, y1))
    (hx01 : x0 < x1) (hy01 : y0 < y1) (pts : PointSeq)
    (hin : ∀ q ∈ pts, x0 < q.1 ∧ q.1 < x1 ∧ y0 < q.2 ∧ q.2 < y1) :
    ∀ cellmat ∈ figure_to_image_cells p pts,
      image_to_figure_core p cellmat = pts := by
  intro cellmat hmem
  simp only [figure_to_image_cells, List.mem_flatten, List.mem_map,
    List.mem_range] at hmem
  obtain ⟨l, ⟨ii, hii, rfl⟩, hcell⟩ := hmem
  simp only [List.mem_map, List.mem_range] at hcell
  obtain ⟨jj, hjj, rfl⟩ := hcell
  have hmap : List.map (im2figPt p)
      (List.map (cellOffset p ii jj) (List.map (fig2imPt p) pts))
        = List.map id pts := by
    rw [List.map_map, List.map_map]
    refine List.map_congr_left ?_
    intro q hq
    obtain ⟨h1, h2, h3, h4⟩ := hin q hq
    simpa [Function.comp] using
      im2fig_fig2im_pt p x0 x1 y0 y1 him hfw hfh hx hy hx01 hy01 ii jj q
        h1 h2 h3 h4
  simpa [image_to_figure_core] using hmap

theorem figure_image_roundtrip_witness :
    (0 : ℚ) < 100 ∧ (0 : ℚ) < 1 ∧
    image_to_figure_core testPanel [(50, 75)] = [(1/2, 1/4)] := by
  refine ⟨by norm_num, by norm_num, ?_⟩
  exact figure_image_roundtrip testPanel 0 1 0 1
    (by norm_num [testPanel]) (by norm_num [testPanel]) (by norm_num [testPanel])
    rfl rfl (by norm_num) (by norm_num) [(1/2, 1/4)]
    (by
      intro q hq
      rw [List.mem_singleton] at hq
      subst hq
      norm_num)
    [(50, 75)]
    (by
      norm_num [figure_to_image_cells, testPanel, cellshape, xlimOf, ylimOf,
        fig2imPt, cellOffset])

/-- C10: the 1-D branch of `image_to_figure` returns
`figure_to_image([p])[0]` — the forward figure-to-pixel mapping for the
first grid cell — rather than the inverse mapping, so the inverse
relationship holds for N×2 matrix inputs but not for 1-D vector inputs. -/
theorem image_to_figure_vec_forward :
    (∀ (p : FigurePanel) (pt : Point),
        image_to_figure p (NpPoints.vec pt)
          = ((figure_to_image_cells p [pt]).head?).map NpResult.one) ∧
    (∀ (p : FigurePanel) (pt : Point),
        image_to_figure p (NpPoints.vec pt)
          = figure_to_image p (NpPoints.vec pt)) ∧
    image_to_figure testPanel (NpPoints.mat [(25, 75)])
      = some (NpResult.one [(1/4, 1/4)]) ∧
    image_to_figure testPanel (NpPoints.vec (25, 75))
      ≠ some (NpResult.one [(1/4, 1/4)]) := by
  refine ⟨fun p pt => rfl, fun p pt => rfl, ?_, ?_⟩
  · norm_num [image_to_figure, image_to_figure_core, im2figPt, testPanel,
      cellshape, xlimOf, ylimOf, qmod]
  · norm_num [image_to_figure, figure_to_image_cells, fig2imPt, cellOffset,
      testPanel, cellshape, xlimOf, ylimOf, range_one_eq]

theorem lookup_dset_self {κ ν : Type} [BEq κ] [LawfulBEq κ]
    (m : List (κ × ν)) (k : κ) (v : ν) :
    List.lookup k (dset m k v) = some v := by
  induction m with
  | nil => simp [dset]
  | cons e rest ih =>
    obtain ⟨k', v'⟩ := e
    by_cases h : (k' == k) = true
    · simp [dset, h]
    · have hne : (k == k') = false := by
        rw [beq_eq_false_iff_ne]
        intro heq
        subst heq
        simp at h
      simp [dset, h, List.lookup_cons, hne, ih]

theorem lookup_dset_ne {κ ν : Type} [BEq κ] [LawfulBEq κ]
    (m : List (κ × ν)) (k k' : κ) (v : ν) (hne : (k' == k) = false) :
    List.lookup k' (dset m k v) = List.lookup k' m := by
  induction m with
  | nil => simp [dset, List.lookup_cons, hne]
  | cons e rest ih =>
    obtain ⟨k1, v1⟩ := e
    by_cases h : (k1 == k) = true
    · have hk : k1 = k := eq_of_beq h
      subst hk
      simp [dset, List.lookup_cons, hne]
    · simp [dset, h, List.lookup_cons, ih]

theorem aget_dset_self (m : AnnotMap) (k : String) (v : Option PointSeq) :
    aget (dset m k v) k = v := by
  simp [aget, lookup_dset_self]

theorem aget_dset_ne (m : AnnotMap) (k k' : String) (v : Option PointSeq)
    (h : k' ≠ k) : aget (dset m k v) k' = aget m k' := by
  simp [aget, lookup_dset_ne _ _ _ _ (beq_eq_false_iff_ne.mpr h)]

/-- C2 counterexample: with no fixed points and a single stored free point,
`pop_point` sets the annotation to `None` (absent) — it does not keep the
remaining single free point. -/
theorem pop_single_point_discards :
    aget popPanel.annotations "B" = some [(0, 0)] ∧
    annAfter (pop_point popPanel) "B" = some none := ⟨rfl, rfl⟩

/-- C2 (amended): after stripping any fixed head/tail, a `pop` on a
non-empty foreground annotation discards the annotation (sets it to
absent) whenever the free sub-sequence has fewer than 2 points — including
when exactly one free point remains, which is discarded rather than kept
(the corrupted-data warning fires only in the completely-empty case);
with 2 or more free points exactly one point is removed at the cursor end
and the fixed points are re-attached. -/
theorem pop_point_policy (p : FigurePanel) (fg : String)
    (q0 : Point) (rest0 fhl free ftl : PointSeq)
    (hfg : p.foreground = some fg)
    (hget : aget p.annotations fg = some (q0 :: rest0))
    (hstrip : stripFixed (fixed_head p fg).isSome (fixed_tail p fg).isSome
      (q0 :: rest0) = some (fhl, free, ftl)) :
    (free.length < 2 → annAfter (pop_point p) fg = some none) ∧
    (2 ≤ free.length → annAfter (pop_point p) fg =
      some (some (fhl ++
        (if p.cursor_position = Cursor.head then free.tail else free.dropLast)
        ++ ftl))) := by
  constructor
  · intro h
    simp [pop_point, hfg, hget, hstrip, h, annAfter, setAnn, aget_dset_self]
  · intro h
    simp [pop_point, hfg, hget, hstrip, annAfter, setAnn, aget_dset_self,
      Nat.not_lt.mpr h]

theorem pop_point_policy_witness :
    annAfter (pop_point popPanelW) "B"
      = some (some [((1 : ℚ), (1 : ℚ)), ((2 : ℚ), (2 : ℚ))]) := by
  have h := (pop_point_policy popPanelW "B" (1, 1) [(2, 2), (3, 3)] []
      [(1, 1), (2, 2), (3, 3)] [] rfl rfl rfl).2 (by norm_num)
  simpa [popPanelW, testPanel] using h

/-- C6 counterexample: for a point-type foreground annotation with no
fixed endpoints and prior sequence `[(0,0)]`, a push followed immediately
by a pop leaves the annotation absent instead of restoring the prior
sequence. -/
theorem push_pop_point_counterexample :
    aget pointPanel.annotations "B" = some [(0, 0)] ∧
    annAfter ((push_point pointPanel ((1 : ℚ), (1 : ℚ))).bind pop_point) "B"
      = some none := ⟨rfl, rfl⟩

theorem pop_point_eq_discard (p : FigurePanel) (fg : String) (q0 : Point)
    (rest0 fhl free ftl : PointSeq)
    (hfg : p.foreground = some fg)
    (hget : aget p.annotations fg = some (q0 :: rest0))
    (hstrip : stripFixed (fixed_head p fg).isSome (fixed_tail p fg).isSome
      (q0 :: rest0) = some (fhl, free, ftl))
    (hlen : free.length < 2) :
    pop_point p = some (setAnn p fg none) := by
  simp [pop_point, hfg, hget, hstrip, hlen]

theorem pop_point_eq_drop (p : FigurePanel) (fg : String) (q0 : Point)
    (rest0 fhl free ftl : PointSeq)
    (hfg : p.foreground = some fg)
    (hget : aget p.annotations fg = some (q0 :: rest0))
    (hstrip : stripFixed (fixed_head p fg).isSome (fixed_tail p fg).isSome
      (q0 :: rest0) = some (fhl, free, ftl))
    (hlen : ¬ free.length < 2) :
    pop_point p = some (setAnn p fg (some (fhl ++
      (if p.cursor_position = Cursor.head then free.tail else free.dropLast)
      ++ ftl))) := by
  cases hcur : p.cursor_position <;>
    simp [pop_point, hfg, hget, hstrip, hlen, hcur]

theorem push_point_eq_empty (p : FigurePanel) (fg : String) (x : Point)
    (hfg : p.foreground = some fg)
    (hget : (aget p.annotations fg).getD [] = []) :
    push_point p x = some (setAnn p fg
      (some ((fixed_head p fg).toList ++ [x] ++ (fixed_tail p fg).toList))) := by
  simp [push_point, hfg, hget]

theorem push_point_eq_cons (p : FigurePanel) (fg : String) (x q0 : Point)
    (rest0 fhl free ftl : PointSeq)
    (hfg : p.foreground = some fg)
    (hget : (aget p.annotations fg).getD [] = q0 :: rest0)
    (hstrip : stripFixed (fixed_head p fg).isSome (fixed_tail p fg).isSome
      (q0 :: rest0) = some (fhl, free, ftl))
    (hat : isPointType (annotation_type p fg) = false) :
    push_point p x = some (setAnn p fg (some
      (if p.cursor_position = Cursor.head then fhl ++ [x] ++ free ++ ftl
       else fhl ++ free ++ [x] ++ ftl))) := by
  cases hcur : p.cursor_position <;>
    simp [push_point, hfg, hget, hstrip, hat, hcur]

theorem annAfter_some_setAnn (p : FigurePanel) (fg : String)
    (v : Option PointSeq) : annAfter (some (setAnn p fg v)) fg = some v := by
  simp [annAfter, setAnn, aget_dset_self]

/-- C6 (amended): for a foreground annotation that is not of point type,
has no fixed endpoints, and whose prior sequence is absent or non-empty, a
push of any point followed immediately by a pop restores the exact prior
sequence, for either cursor position (a present-but-empty prior sequence
instead comes back as absent). -/
theorem push_pop_roundtrip (p : FigurePanel) (fg : String) (x : Point)
    (hfg : p.foreground = some fg)
    (hfh : fixed_head p fg = none) (hft : fixed_tail p fg = none)
    (hat : isPointType (annotation_type p fg) = false)
    (hprior : aget p.annotations fg = none ∨
      ∃ q0 rest0, aget p.annotations fg = some (q0 :: rest0)) :
    annAfter ((push_point p x).bind pop_point) fg
      = some (aget p.annotations fg) := by
  rcases hprior with hnone | ⟨q0, rest0, hsome⟩
  · have hpts : (aget p.annotations fg).getD [] = [] := by rw [hnone]; rfl
    have hpush : push_point p x = some (setAnn p fg (some [x])) := by
      have h := push_point_eq_empty p fg x hfg hpts
      rw [hfh, hft] at h
      simpa using h
    have hfg1 : (setAnn p fg (some [x])).foreground = some fg := hfg
    have hget1 : aget (setAnn p fg (some [x])).annotations fg = some [x] :=
      aget_dset_self _ _ _
    have hfh1 : fixed_head (setAnn p fg (some [x])) fg = none := hfh
    have hft1 : fixed_tail (setAnn p fg (some [x])) fg = none := hft
    have hstrip1 : stripFixed
        (fixed_head (setAnn p fg (some [x])) fg).isSome
        (fixed_tail (setAnn p fg (some [x])) fg).isSome [x]
        = some ([], [x], []) := by
      rw [hfh1, hft1]
      simp [stripFixed]
    have hpop := pop_point_eq_discard (setAnn p fg (some [x])) fg x [] [] [x]
      [] hfg1 hget1 hstrip1 (by norm_num)
    have hbind : (push_point p x).bind pop_point
        = pop_point (setAnn p fg (some [x])) := by rw [hpush]; rfl
    rw [hbind, hpop, annAfter_some_setAnn, hnone]
  · have hpts : (aget p.annotations fg).getD [] = q0 :: rest0 := by
      rw [hsome]; rfl
    have hstrip : stripFixed (fixed_head p fg).isSome (fixed_tail p fg).isSome
        (q0 :: rest0) = some ([], q0 :: rest0, []) := by
      rw [hfh, hft]
      simp [stripFixed]
    have hpushIf := push_point_eq_cons p fg x q0 rest0 [] (q0 :: rest0) []
      hfg hpts hstrip hat
    cases hcur : p.cursor_position with
    | head =>
      have hpush : push_point p x
          = some (setAnn p fg (some (x :: q0 :: rest0))) := by
        rw [hpushIf, hcur]
        simp
      have hfg1 : (setAnn p fg (some (x :: q0 :: rest0))).foreground
          = some fg := hfg
      have hget1 : aget (setAnn p fg (some (x :: q0 :: rest0))).annotations fg
          = some (x :: q0 :: rest0) := aget_dset_self _ _ _
      have hfh1 : fixed_head (setAnn p fg (some (x :: q0 :: rest0))) fg
          = none := hfh
      have hft1 : fixed_tail (setAnn p fg (some (x :: q0 :: rest0))) fg
          = none := hft
      have hstrip1 : stripFixed
          (fixed_head (setAnn p fg (some (x :: q0 :: rest0))) fg).isSome
          (fixed_tail (setAnn p fg (some (x :: q0 :: rest0))) fg).isSome
          (x :: q0 :: rest0) = some ([], x :: q0 :: rest0, []) := by
        rw [hfh1, hft1]
        simp [stripFixed]
      have hcur1 : (setAnn p fg (some (x :: q0 :: rest0))).cursor_position
          = Cursor.head := hcur
      have hlen : ¬ ((x :: q0 :: rest0).length < 2) := by
        simp [List.length_cons]
      have hpop := pop_point_eq_drop (setAnn p fg (some (x :: q0 :: rest0)))
        fg x (q0 :: rest0) [] (x :: q0 :: rest0) [] hfg1 hget1 hstrip1 hlen
      rw [hcur1] at hpop
      simp at hpop
      have hbind : (push_point p x).bind pop_point
          = pop_point (setAnn p fg (some (x :: q0 :: rest0))) := by
        rw [hpush]; rfl
      rw [hbind, hpop, annAfter_some_setAnn, hsome]
    | tail =>
      have hpush : push_point p x
          = some (setAnn p fg (some (q0 :: (rest0 ++ [x])))) := by
        rw [hpushIf, hcur]
        simp
      have hfg1 : (setAnn p fg (some (q0 :: (rest0 ++ [x])))).foreground
          = some fg := hfg
      have hget1 : aget
          (setAnn p fg (some (q0 :: (rest0 ++ [x])))).annotations fg
          = some (q0 :: (rest0 ++ [x])) := aget_dset_self _ _ _
      have hfh1 : fixed_head (setAnn p fg (some (q0 :: (rest0 ++ [x])))) fg
          = none := hfh
      have hft1 : fixed_tail (setAnn p fg (some (q0 :: (rest0 ++ [x])))) fg
          = none := hft
      have hstrip1 : stripFixed
          (fixed_head (setAnn p fg (some (q0 :: (rest0 ++ [x])))) fg).isSome
          (fixed_tail (setAnn p fg (some (q0 :: (rest0 ++ [x])))) fg).isSome
          (q0 :: (rest0 ++ [x])) = some ([], q0 :: (rest0 ++ [x]), []) := by
        rw [hfh1, hft1]
        simp [stripFixed]
      have hcur1 : (setAnn p fg (some (q0 :: (rest0 ++ [x])))).cursor_position
          = Cursor.tail := hcur
      have hlen : ¬ ((q0 :: (rest0 ++ [x])).length < 2) := by
        simp [List.length_cons, List.length_append]
      have hpop := pop_point_eq_drop (setAnn p fg (some (q0 :: (rest0 ++ [x]))))
        fg q0 (rest0 ++ [x]) [] (q0 :: (rest0 ++ [x])) [] hfg1 hget1 hstrip1
        hlen
      rw [hcur1] at hpop
      have hdrop : (q0 :: (rest0 ++ [x])).dropLast = q0 :: rest0 := by
        rw [show q0 :: (rest0 ++ [x]) = (q0 :: rest0) ++ [x] from rfl]
        exact List.dropLast_concat
      simp [hdrop] at hpop
      have hbind : (push_point p x).bind pop_point
          = pop_point (setAnn p fg (some (q0 :: (rest0 ++ [x])))) := by
        rw [hpush]; rfl
      rw [hbind, hpop, annAfter_some_setAnn, hsome]

theorem push_pop_roundtrip_witness :
    annAfter ((push_point pathPanel ((9 : ℚ), (9 : ℚ))).bind pop_point) "B"
      = some (some [((1 : ℚ), (1 : ℚ)), ((2 : ℚ), (2 : ℚ))]) := by
  have h := push_pop_roundtrip pathPanel "B" (9, 9) rfl rfl rfl rfl
    (Or.inr ⟨(1, 1), [(2, 2)], rfl⟩)
  simpa using h

theorem push_point_replaces (p : FigurePanel) (fg : String) (x : Point)
    (hfg : p.foreground = some fg)
    (hfh : fixed_head p fg = none) (hft : fixed_tail p fg = none)
    (hat : isPointType (annotation_type p fg) = true) :
    push_point p x = some (setAnn p fg (some [x])) := by
  rcases hget : (aget p.annotations fg).getD [] with _ | ⟨q, rest⟩
  · simp [push_point, hfg, hget, hfh, hft]
  · have hstrip : stripFixed (fixed_head p fg).isSome (fixed_tail p fg).isSome
        (q :: rest) = some ([], q :: rest, []) := by
      simp [hfh, hft, stripFixed]
    simp [push_point, hfg, hget, hstrip, hat]

/-- C7 (amended): for a point-type foreground annotation with no fixed
head or tail, any non-empty sequence of repeated pushes leaves exactly one
stored point, equal to the most recently pushed point.  (With a fixed
endpoint present, the first push on an empty sequence instead stores the
fixed point together with the new point; see the counterexample.) -/
theorem point_type_repeated_push (p : FigurePanel) (fg : String)
    (xs : List Point) (x0 : Point)
    (hfg : p.foreground = some fg)
    (hfh : fixed_head p fg = none) (hft : fixed_tail p fg = none)
    (hat : isPointType (annotation_type p fg) = true)
    (hlast : xs.getLast? = some x0) :
    annAfter (pushList p xs) fg = some (some [x0]) := by
  induction xs generalizing p x0 with
  | nil => simp at hlast
  | cons x rest ih =>
    have hpush := push_point_replaces p fg x hfg hfh hft hat
    cases rest with
    | nil =>
      have hx : x = x0 := by simpa using hlast
      subst hx
      simp [pushList, List.foldlM, hpush, annAfter, setAnn, aget_dset_self]
    | cons y rest2 =>
      have hfg1 : (setAnn p fg (some [x])).foreground = some fg := hfg
      have hfh1 : fixed_head (setAnn p fg (some [x])) fg = none := hfh
      have hft1 : fixed_tail (setAnn p fg (some [x])) fg = none := hft
      have hat1 : isPointType (annotation_type (setAnn p fg (some [x])) fg)
          = true := hat
      have hlast1 : (y :: rest2).getLast? = some x0 := by
        rwa [List.getLast?_cons_cons] at hlast
      have hrec := ih (setAnn p fg (some [x])) x0 hfg1 hfh1 hft1 hat1 hlast1
      simpa [pushList, List.foldlM, hpush] using hrec

theorem point_type_repeated_push_witness :
    annAfter (pushList pointPanel2
        [((1 : ℚ), (1 : ℚ)), ((2 : ℚ), (2 : ℚ)), ((3 : ℚ), (3 : ℚ))]) "B"
      = some (some [((3 : ℚ), (3 : ℚ))]) :=
  point_type_repeated_push pointPanel2 "B" _ (3, 3) rfl rfl rfl rfl rfl

/-- C7 counterexample: a first push on an empty point-type annotation that
has a fixed head stores two points — the fixed head and the new point —
not exactly one point. -/
theorem point_push_fixed_counterexample :
    annAfter (push_point pointFixedPanel ((1 : ℚ), (1 : ℚ))) "B"
      = some (some [(5, 5), (1, 1)]) ∧
    ([((5 : ℚ), (5 : ℚ)), ((1 : ℚ), (1 : ℚ))] : PointSeq).length = 2 :=
  ⟨rfl, rfl⟩

theorem saveOne_ne (fs : FileStore) (e : String × AnnVal) (n : String)
    (h : n ≠ e.1) : saveOne fs e n = fs n := by
  rcases e with ⟨k, a⟩
  rcases a with _ | v
  · rfl
  · rcases v with _ | xs
    · simp [saveOne, h]
    · simp only [saveOne]
      split <;> simp [h]

theorem fold_save_ne (annots : TargetAnnots) (fs : FileStore) (n : String)
    (h : ∀ e ∈ annots, n ≠ e.1) :
    save_target_annotations annots fs n = fs n := by
  induction annots generalizing fs with
  | nil => rfl
  | cons e rest ih =>
    have h1 : saveOne fs e n = fs n := saveOne_ne fs e n (h e (by simp))
    have h2 := ih (saveOne fs e) (fun x hx => h x (by simp [hx]))
    calc save_target_annotations (e :: rest) fs n
        = save_target_annotations rest (saveOne fs e) n := rfl
      _ = saveOne fs e n := h2
      _ = fs n := h1

/-- C4: per (target, annotation) pair, saving a non-empty sequence and then
loading it returns the same sequence, and saving a `None`/empty sequence
removes any existing annotation file so that a subsequent load returns the
empty 0×2 sequence.  (Lazily-unloaded annotations are skipped by the save
loop and never reach this entry.) -/
theorem save_load_roundtrip (annots : TargetAnnots) (fs : FileStore)
    (k : String) (v : Option PointSeq)
    (hnodup : (annots.map Prod.fst).Nodup)
    (hk : List.lookup k annots = some (AnnVal.loaded v)) :
    (∀ xs, v = some xs → xs ≠ [] →
      save_target_annotations annots fs k = some xs ∧
      load_target_annot (save_target_annotations annots fs) k = xs) ∧
    ((v = none ∨ v = some []) →
      save_target_annotations annots fs k = none ∧
      load_target_annot (save_target_annotations annots fs) k = []) := by
  induction annots generalizing fs with
  | nil => simp at hk
  | cons e rest ih =>
    obtain ⟨k1, a1⟩ := e
    rw [List.map_cons, List.nodup_cons] at hnodup
    obtain ⟨hk1rest, hrestnodup⟩ := hnodup
    rw [List.lookup_cons] at hk
    by_cases hkk : (k == k1) = true
    · have hkeq : k = k1 := eq_of_beq hkk
      rw [hkk] at hk
      simp only [Option.some.injEq] at hk
      subst hk
      have hrest : ∀ x ∈ rest, k ≠ x.1 := by
        intro x hx hne
        apply hk1rest
        show k1 ∈ List.map Prod.fst rest
        exact List.mem_map.mpr ⟨x, hx, hne.symm.trans hkeq⟩
      have hmain : save_target_annotations ((k1, AnnVal.loaded v) :: rest) fs k
          = saveOne fs (k1, AnnVal.loaded v) k := by
        calc save_target_annotations ((k1, AnnVal.loaded v) :: rest) fs k
            = save_target_annotations rest
                (saveOne fs (k1, AnnVal.loaded v)) k := rfl
          _ = saveOne fs (k1, AnnVal.loaded v) k := fold_save_ne rest _ k hrest
      constructor
      · intro xs hxs hne
        subst hxs
        have hlen : ¬ (xs.length = 0) := by simpa using hne
        constructor
        · rw [hmain]
          simp [saveOne, hlen, hkeq]
        · simp only [load_target_annot]
          rw [hmain]
          simp [saveOne, hlen, hkeq]
      · intro hempty
        rcases hempty with hv | hv <;> subst hv
        · constructor
          · rw [hmain]
            simp [saveOne, hkeq]
          · simp only [load_target_annot]
            rw [hmain]
            simp [saveOne, hkeq]
        · constructor
          · rw [hmain]
            simp [saveOne, hkeq]
          · simp only [load_target_annot]
            rw [hmain]
            simp [saveOne, hkeq]
    · have hkf : (k == k1) = false := by simpa using hkk
      rw [hkf] at hk
      exact ih (saveOne fs (k1, a1)) hrestnodup hk

theorem save_load_roundtrip_witness :
    (save_target_annotations demoAnnots (fun _ => none) "A"
        = some [((1 : ℚ), (2 : ℚ))] ∧
      load_target_annot
        (save_target_annotations demoAnnots (fun _ => none)) "A"
        = [((1 : ℚ), (2 : ℚ))]) ∧
    (save_target_annotations demoAnnots (fun _ => none) "B" = none ∧
      load_target_annot
        (save_target_annotations demoAnnots (fun _ => none)) "B" = []) := by
  constructor
  · exact (save_load_roundtrip demoAnnots (fun _ => none) "A"
      (some [((1 : ℚ), (2 : ℚ))]) (by simp [demoAnnots]) rfl).1
      [((1 : ℚ), (2 : ℚ))] rfl (by simp)
  · exact (save_load_roundtrip demoAnnots (fun _ => none) "B" (some [])
      (by simp [demoAnnots]) rfl).2 (Or.inr rfl)

theorem checkCell_ok_iff (ann : String) (md0 md : FigMeta) :
    checkCell ann md0 md = Except.ok () ↔ md0 = md := by
  obtain ⟨x0, y0⟩ := md0
  obtain ⟨x1, y1⟩ := md
  by_cases hx : x0 = x1 <;> by_cases hy : y0 = y1 <;>
    simp [checkCell, hx, hy]

theorem checkRow_ok_iff {α : Type} (ann : String) (md0 : FigMeta)
    (row : List (Image α × FigMeta)) :
    checkRow ann md0 row = Except.ok () ↔ ∀ c ∈ row, md0 = c.2 := by
  induction row with
  | nil => simp [checkRow]
  | cons c rest ih =>
    by_cases h : md0 = c.2
    · subst h
      have hok : checkCell ann c.2 c.2 = Except.ok () :=
        (checkCell_ok_iff ann c.2 c.2).mpr rfl
      simp [checkRow, hok, ih]
    · have hno : checkCell ann md0 c.2 ≠ Except.ok () := fun hk =>
        h ((checkCell_ok_iff ann md0 c.2).mp hk)
      rcases hcc : checkCell ann md0 c.2 with e | u
      · simp [checkRow, hcc, h]
      · cases u
        exact absurd hcc hno

theorem checkGrid_ok_iff {α : Type} (ann : String) (md0 : FigMeta)
    (fd : List (List (Image α × FigMeta))) :
    checkGrid ann md0 fd = Except.ok () ↔
      ∀ row ∈ fd, ∀ c ∈ row, md0 = c.2 := by
  induction fd with
  | nil => simp [checkGrid]
  | cons row rest ih =>
    rcases hr : checkRow ann md0 row with e | u
    · have hnall : ¬ (∀ c ∈ row, md0 = c.2) := by
        rw [← checkRow_ok_iff ann md0 row, hr]
        simp
      simp only [checkGrid, hr]
      constructor
      · intro hfalse
        exact absurd hfalse (by simp)
      · intro hall
        exfalso
        apply hnall
        intro cc hcc
        exact hall row (by simp) cc hcc
    · cases u
      have hall := (checkRow_ok_iff ann md0 row).mp hr
      simp only [checkGrid, hr]
      rw [ih]
      constructor
      · intro hrest r hrmem c hc
        rcases List.mem_cons.mp hrmem with hr1 | hr1
        · subst hr1
          exact hall c hc
        · exact hrest r hr1 c hc
      · intro hallcons r hrmem c hc
        exact hallcons r (by simp [hrmem]) c hc

theorem hconcat2_uniform {α : Type} (h : ℕ) (a b : Image α)
    (ha : a.length = h) (hb : b.length = h) :
    hconcat2 a b = some (List.zipWith (fun r s => r ++ s) a b) ∧
    (List.zipWith (fun r s => r ++ s) a b).length = h ∧
    (0 < h → imgWidth (List.zipWith (fun r s => r ++ s) a b)
      = imgWidth a + imgWidth b) := by
  refine ⟨by simp [hconcat2, ha, hb], by simp [ha, hb], ?_⟩
  intro hpos
  rcases a with _ | ⟨ra, as⟩
  · simp at ha
    omega
  rcases b with _ | ⟨rb, bs⟩
  · simp at hb
    omega
  simp [imgWidth]

theorem foldl_hconcat_uniform {α : Type} (h : ℕ) (hpos : 0 < h)
    (is : List (Image α)) :
    ∀ (i : Image α), i.length = h → (∀ x ∈ is, x.length = h) →
      ∃ r, is.foldlM hconcat2 i = some r ∧ r.length = h ∧
        imgWidth r = imgWidth i + (is.map imgWidth).sum := by
  induction is with
  | nil =>
    intro i hi _
    exact ⟨i, rfl, hi, by simp⟩
  | cons x is ih =>
    intro i hi hall
    have hx : x.length = h := hall x (by simp)
    obtain ⟨hc, hlen, hwid⟩ := hconcat2_uniform h i x hi hx
    obtain ⟨r, hr, hrlen, hrwid⟩ := ih (List.zipWith (fun r s => r ++ s) i x)
      hlen (fun y hy => hall y (by simp [hy]))
    refine ⟨r, ?_, hrlen, ?_⟩
    · calc (x :: is).foldlM hconcat2 i
          = is.foldlM hconcat2 (List.zipWith (fun r s => r ++ s) i x) := by
            rw [List.foldlM_cons, hc]
            rfl
        _ = some r := hr
    · rw [hrwid, hwid hpos]
      simp
      omega

theorem imgWidth_append {α : Type} (a b : Image α) (hne : a ≠ []) :
    imgWidth (a ++ b) = imgWidth a := by
  rcases a with _ | ⟨r, as⟩
  · simp at hne
  · simp [imgWidth]

theorem foldl_vconcat_uniform {α : Type} (W : ℕ) (is : List (Image α)) :
    ∀ (i : Image α), imgWidth i = W → 0 < i.length →
      (∀ x ∈ is, imgWidth x = W) →
      ∃ r, is.foldlM vconcat2 i = some r ∧ imgWidth r = W ∧
        r.length = i.length + (is.map List.length).sum := by
  induction is with
  | nil =>
    intro i hw _ _
    exact ⟨i, rfl, hw, by simp⟩
  | cons x is ih =>
    intro i hw hpos hall
    have hxw : imgWidth x = W := hall x (by simp)
    have hvc : vconcat2 i x = some (i ++ x) := by simp [vconcat2, hw, hxw]
    have hane : i ≠ [] := by
      intro hnil
      rw [hnil] at hpos
      simp at hpos
    have hiw : imgWidth (i ++ x) = W := by
      rw [imgWidth_append i x hane]
      exact hw
    have hlen2 : 0 < (i ++ x).length := by
      simp
      omega
    obtain ⟨r, hr, hrw, hrlen⟩ := ih (i ++ x) hiw hlen2
      (fun y hy => hall y (by simp [hy]))
    refine ⟨r, ?_, hrw, ?_⟩
    · calc (x :: is).foldlM vconcat2 i
          = is.foldlM vconcat2 (i ++ x) := by
            rw [List.foldlM_cons, hvc]
            rfl
        _ = some r := hr
    · rw [hrlen]
      simp
      omega

theorem sum_const_list (l : List ℕ) (w : ℕ) (h : ∀ x ∈ l, x = w) :
    l.sum = l.length * w := by
  induction l with
  | nil => simp
  | cons x xs ih =>
    have hx : x = w := h x (by simp)
    have hrest := ih (fun y hy => h y (by simp [hy]))
    simp [hx, hrest]
    ring

theorem concatRows_uniform {α : Type} (h w ncols : ℕ) (hpos : 0 < h)
    (hcols : 0 < ncols) (fd : List (List (Image α × FigMeta)))
    (hrowlen : ∀ row ∈ fd, row.length = ncols)
    (hshape : ∀ row ∈ fd, ∀ c ∈ row, (c.1).length = h ∧ imgWidth c.1 = w) :
    ∃ rows, concatRows fd = some rows ∧ rows.length = fd.length ∧
      ∀ i ∈ rows, i.length = h ∧ imgWidth i = w * ncols := by
  induction fd with
  | nil => exact ⟨[], rfl, rfl, by simp⟩
  | cons row rest ih =>
    obtain ⟨rows, hrows, hrlen, hrprop⟩ := ih
      (fun r hr => hrowlen r (by simp [hr]))
      (fun r hr c hc => hshape r (by simp [hr]) c hc)
    cases row with
    | nil =>
      exfalso
      have h0 := hrowlen [] (by simp)
      simp at h0
      omega
    | cons c cs =>
      have hclen : (c.1).length = h := (hshape (c :: cs) (by simp) c (by simp)).1
      have hallcs : ∀ x ∈ cs.map Prod.fst, x.length = h := by
        intro x hx
        obtain ⟨cc, hcc, rfl⟩ := List.mem_map.mp hx
        exact (hshape (c :: cs) (by simp) cc (by simp [hcc])).1
      obtain ⟨rimg, hri, hrilen, hriwid⟩ := foldl_hconcat_uniform h hpos
        (cs.map Prod.fst) c.1 hclen hallcs
      have hcw : imgWidth c.1 = w := (hshape (c :: cs) (by simp) c (by simp)).2
      have hn : cs.length + 1 = ncols := by
        have hx := hrowlen (c :: cs) (by simp)
        simpa using hx
      have hwid : imgWidth rimg = w * ncols := by
        rw [hriwid, hcw]
        have hsum : ((cs.map Prod.fst).map imgWidth).sum
            = ((cs.map Prod.fst).map imgWidth).length * w := by
          apply sum_const_list
          intro x hx
          simp only [List.map_map, List.mem_map] at hx
          obtain ⟨cc, hcc, rfl⟩ := hx
          exact (hshape (c :: cs) (by simp) cc (by simp [hcc])).2
        rw [hsum]
        simp only [List.length_map]
        rw [← hn]
        ring
      have hri2 : hconcatImgs (c.1 :: List.map Prod.fst cs) = some rimg := by
        simpa [hconcatImgs] using hri
      refine ⟨rimg :: rows, ?_, by simp [hrlen], ?_⟩
      · simp [concatRows, hri2, hrows]
      · intro i hi
        rcases List.mem_cons.mp hi with hi | hi
        · subst hi
          exact ⟨hrilen, hwid⟩
        · exact hrprop i hi

/-- C5: grid composition for a (target, annotation) raises iff two cells
of the annotation grid report different `xlim`/`ylim` metadata; when all
cells share identical limits (and the uniform cell raster shape that
rendered figures share), it does not raise and produces the row-major
tiled composite — cells of a row concatenated horizontally, rows stacked
vertically — whose metadata is the shared limits.  For an r-row grid of
h×w cells with ncols columns the composite is (r*h)×(ncols*w). -/
theorem generate_grid_spec {α : Type} (ann : String)
    (figdata : List (List (Image α × FigMeta))) (c00 : Image α × FigMeta)
    (h w ncols : ℕ)
    (h00 : figdata.head?.bind List.head? = some c00)
    (hpos : 0 < h) (hcols : 0 < ncols)
    (hrowlen : ∀ row ∈ figdata, row.length = ncols)
    (hshape : ∀ row ∈ figdata, ∀ c ∈ row,
      (c.1).length = h ∧ imgWidth c.1 = w) :
    ((∃ c1 ∈ figdata.flatten, ∃ c2 ∈ figdata.flatten, c1.2 ≠ c2.2) →
      ∃ e, generate_grid ann figdata = Except.error e) ∧
    ((∀ c ∈ figdata.flatten, c.2 = c00.2) →
      ∃ rows grid, concatRows figdata = some rows ∧
        vconcatImgs rows = some grid ∧
        generate_grid ann figdata = Except.ok (grid, c00.2) ∧
        grid.length = figdata.length * h ∧
        imgWidth grid = w * ncols) := by
  constructor
  · rintro ⟨c1, hc1, c2, hc2, hne⟩
    rcases hchk : checkGrid ann c00.2 figdata with e | u
    · exact ⟨e, by simp [generate_grid, h00, hchk]⟩
    · cases u
      exfalso
      have hall := (checkGrid_ok_iff ann c00.2 figdata).mp hchk
      obtain ⟨r1, hr1, hcr1⟩ := List.mem_flatten.mp hc1
      obtain ⟨r2, hr2, hcr2⟩ := List.mem_flatten.mp hc2
      exact hne ((hall r1 hr1 c1 hcr1).symm.trans (hall r2 hr2 c2 hcr2))
  · intro hall
    have hchk : checkGrid ann c00.2 figdata = Except.ok () :=
      (checkGrid_ok_iff ann c00.2 figdata).mpr
        (fun row hr c hc => (hall c (List.mem_flatten.mpr ⟨row, hr, hc⟩)).symm)
    obtain ⟨rows, hrows, hrowslen, hrowsprop⟩ :=
      concatRows_uniform h w ncols hpos hcols figdata hrowlen hshape
    cases rows with
    | nil =>
      exfalso
      rcases figdata with _ | ⟨fr, frest⟩
      · simp at h00
      · simp at hrowslen
    | cons r0 rrest =>
      have hr0 := hrowsprop r0 (by simp)
      have hallr : ∀ x ∈ rrest, imgWidth x = w * ncols := fun x hx =>
        (hrowsprop x (by simp [hx])).2
      have hr0pos : 0 < r0.length := by
        rw [hr0.1]
        exact hpos
      obtain ⟨grid, hg, hgw, hglen⟩ := foldl_vconcat_uniform (w * ncols)
        rrest r0 hr0.2 hr0pos hallr
      have hvc : vconcatImgs (r0 :: rrest) = some grid := hg
      refine ⟨r0 :: rrest, grid, hrows, hvc, ?_, ?_, hgw⟩
      · simp [generate_grid, h00, hchk, hrows, hvc]
      · rw [hglen, hr0.1]
        have hresth : ∀ x ∈ rrest, x.length = h := fun x hx =>
          (hrowsprop x (by simp [hx])).1
        have hsum : (rrest.map List.length).sum
            = (rrest.map List.length).length * h := by
          apply sum_const_list
          intro x hx
          obtain ⟨y, hy, rfl⟩ := List.mem_map.mp hx
          exact hresth y hy
        rw [hsum, List.length_map]
        have hfd : rrest.length + 1 = figdata.length := by simpa using hrowslen
        rw [← hfd]
        ring

theorem generate_grid_spec_witness :
    generate_grid "ann" demoGrid
      = Except.ok (cellImg 1 ++ cellImg 2, demoMeta) ∧
    (cellImg 1 ++ cellImg 2).length = 200 ∧
    (cellImg 1 ++ cellImg 2).take 100 = cellImg 1 ∧
    imgWidth (cellImg 1 ++ cellImg 2) = 100 := by
  have hmain := (generate_grid_spec "ann" demoGrid (cellImg 1, demoMeta)
      100 100 1 rfl (by norm_num) (by norm_num)
      (by
        intro row hrow
        simp only [demoGrid, List.mem_cons, List.mem_singleton,
          List.not_mem_nil, or_false] at hrow
        rcases hrow with rfl | rfl <;> rfl)
      (by
        intro row hrow c hc
        simp only [demoGrid, List.mem_cons, List.mem_singleton,
          List.not_mem_nil, or_false] at hrow
        rcases hrow with rfl | rfl <;>
          · simp only [List.mem_singleton] at hc
            subst hc
            exact ⟨by simp [cellImg], by simp [cellImg, imgWidth]⟩)).2
    (by
      intro c hc
      simp only [demoGrid, List.flatten] at hc
      simp at hc
      rcases hc with rfl | rfl <;> rfl)
  obtain ⟨rows, grid, hrows, hvc, hok, hlen, hwid⟩ := hmain
  have hcr : concatRows demoGrid = some [cellImg 1, cellImg 2] := rfl
  rw [hcr] at hrows
  have hrowseq : rows = [cellImg 1, cellImg 2] := (Option.some.inj hrows).symm
  subst hrowseq
  have hv2 : vconcatImgs [cellImg 1, cellImg 2]
      = some (cellImg 1 ++ cellImg 2) := rfl
  rw [hv2] at hvc
  have hgrideq : grid = cellImg 1 ++ cellImg 2 := (Option.some.inj hvc).symm
  subst hgrideq
  refine ⟨hok, by simpa [demoGrid] using hlen, ?_, by simpa using hwid⟩
  exact List.take_left' (by simp [cellImg])

theorem lookup_mem_keys {κ ν : Type} [BEq κ] [LawfulBEq κ]
    (d : List (κ × ν)) (k : κ) (v : ν) (h : List.lookup k d = some v) :
    k ∈ d.map Prod.fst := by
  induction d with
  | nil => simp at h
  | cons e rest ih =>
    obtain ⟨k1, v1⟩ := e
    by_cases hk : (k == k1) = true
    · simp [eq_of_beq hk]
    · have hkf : (k == k1) = false := by simpa using hk
      rw [List.lookup_cons] at h
      rw [hkf] at h
      simp only [List.map_cons, List.mem_cons]
      exact Or.inr (ih h)

theorem dset_keys_of_mem {κ ν : Type} [BEq κ] [LawfulBEq κ]
    (d : List (κ × ν)) (k : κ) (v : ν) (h : k ∈ d.map Prod.fst) :
    (dset d k v).map Prod.fst = d.map Prod.fst := by
  induction d with
  | nil => simp at h
  | cons e rest ih =>
    obtain ⟨k1, v1⟩ := e
    by_cases hk : (k1 == k) = true
    · simp [dset, hk, eq_of_beq hk]
    · have hmem : k ∈ rest.map Prod.fst := by
        simp only [List.map_cons, List.mem_cons] at h
        rcases h with h | h
        · exfalso
          apply hk
          simp [h]
        · exact h
      simp [dset, hk, ih hmem]

theorem checkColor_keys (toHex : StyleVal → Option String) (d d2 : StyleDict)
    (h : checkColor toHex d = Except.ok d2) :
    d2.map Prod.fst = d.map Prod.fst := by
  unfold checkColor at h
  split at h
  · simp only [Except.ok.injEq] at h
    rw [h]
  · rename_i v hv
    split at h
    · simp at h
    · rename_i hex hhex
      simp only [Except.ok.injEq] at h
      rw [← h]
      exact dset_keys_of_mem d "color" (StyleVal.str hex)
        (lookup_mem_keys d "color" v (by simpa [sget] using hv))

theorem fix_style_keys (toHex : StyleVal → Option String) (d u : StyleDict)
    (h : fix_style toHex d = Except.ok u) :
    u.map Prod.fst = d.map Prod.fst := by
  unfold fix_style at h
  split at h
  · simp at h
  · split at h
    · simp at h
    · split at h
      · simp at h
      · split at h
        · simp at h
        · split at h
          · simp at h
          · split at h
            · simp at h
            · simp only [Except.ok.injEq] at h
              subst h
              exact checkColor_keys toHex d _ (by assumption)

theorem single_of_keys (u : StyleDict) (k : String)
    (h : u.map Prod.fst = [k]) : ∃ x, u = [(k, x)] := by
  cases u with
  | nil => simp at h
  | cons e rest =>
    obtain ⟨k1, v1⟩ := e
    simp only [List.map_cons, List.cons.injEq] at h
    obtain ⟨hk, hrest⟩ := h
    subst hk
    rw [List.map_eq_nil_iff] at hrest
    subst hrest
    exact ⟨v1, rfl⟩

/-- C8: setting a single style key via the key/value (2-arg) form of
`style()` stores exactly that key into the per-annotation override,
leaving the override value of every other key unchanged, and returns the
full layered merge of default, display, per-annotation and preference
layers. -/
theorem style_single_key_update (cfg : ToolConfig)
    (toHex : StyleVal → Option String) (styles : PrefStyles)
    (annot : Option String) (k : String) (v : StyleVal)
    (u r : StyleDict)
    (hfix : fix_style toHex (dset [] k v) = Except.ok u)
    (hreify : reify_style cfg annot
      (supdate ((List.lookup annot styles).getD []) u) = some r) :
    styleFn cfg toHex styles annot (StyleArgs.setKV [(k, v)])
      = Except.ok (dset styles annot
          (supdate ((List.lookup annot styles).getD []) u), r) ∧
    ∀ k2, k2 ≠ k →
      sget (supdate ((List.lookup annot styles).getD []) u) k2
        = sget ((List.lookup annot styles).getD []) k2 := by
  constructor
  · simp [styleFn, hfix, hreify]
  · intro k2 hk2
    have hkeys : u.map Prod.fst = [k] := by
      have hx := fix_style_keys toHex (dset [] k v) u hfix
      simpa [dset] using hx
    obtain ⟨v2, rfl⟩ := single_of_keys u k hkeys
    show sget (dset ((List.lookup annot styles).getD []) k v2) k2 = _
    simp only [sget]
    exact lookup_dset_ne _ _ _ _ (beq_eq_false_iff_ne.mpr hk2)

theorem style_single_key_update_witness :
    styleFn demoCfg demoHex demoStyles none
        (StyleArgs.setKV [("linestyle", StyleVal.str "dashed")])
      = Except.ok (dset demoStyles none
          (supdate ((List.lookup none demoStyles).getD [])
            [("linestyle", StyleVal.str "dashed")]), demoReified) ∧
    sget (supdate ((List.lookup none demoStyles).getD [])
        [("linestyle", StyleVal.str "dashed")]) "color"
      = sget ((List.lookup none demoStyles).getD []) "color" := by
  have h := style_single_key_update demoCfg demoHex demoStyles none
    "linestyle" (StyleVal.str "dashed")
    [("linestyle", StyleVal.str "dashed")] demoReified rfl rfl
  exact ⟨h.1, h.2 "color" (by decide)⟩

/-- C9 (amended): `fix_style` rejects a numeric linewidth exactly when it
is negative or greater than 20 — the check is `lw < 0 or lw > 20`, so
linewidth 0 is accepted, not rejected. -/
theorem fix_style_linewidth (toHex : StyleVal → Option String) (lw : ℚ) :
    fix_style toHex [("linewidth", StyleVal.num lw)]
      = (if lw < 0 ∨ lw > 20 then
          Except.error ("fix_style given bad linewidth: "
            ++ showVal (StyleVal.num lw))
         else Except.ok [("linewidth", StyleVal.num lw)]) := by
  have h1 : checkKeys [("linewidth", StyleVal.num lw)] = Except.ok () := rfl
  have h2 : checkLinestyle [("linewidth", StyleVal.num lw)]
      = Except.ok () := rfl
  have h3 : checkColor toHex [("linewidth", StyleVal.num lw)]
      = Except.ok [("linewidth", StyleVal.num lw)] := rfl
  have h4 : checkSizeKey [("linewidth", StyleVal.num lw)] "markersize"
      = Except.ok () := rfl
  have h5 : checkVisible [("linewidth", StyleVal.num lw)]
      = Except.ok () := rfl
  have h6 : checkSizeKey [("linewidth", StyleVal.num lw)] "linewidth"
      = (if lw < 0 ∨ lw > 20 then
          Except.error ("fix_style given bad linewidth: "
            ++ showVal (StyleVal.num lw))
         else Except.ok ()) := by
    simp [checkSizeKey, sget, styleNum]
  by_cases h : lw < 0 ∨ lw > 20
  · rw [if_pos h]
    rw [if_pos h] at h6
    simp [fix_style, h1, h6]
  · rw [if_neg h]
    rw [if_neg h] at h6
    simp [fix_style, h1, h2, h3, h4, h5, h6]

/-- C9 counterexample: the claim says a linewidth that is not strictly
positive must be rejected; the code accepts linewidth 0. -/
theorem fix_style_linewidth_zero_accepted :
    fix_style (fun _ => none) [("linewidth", StyleVal.num 0)]
      = Except.ok [("linewidth", StyleVal.num 0)] ∧ ¬ ((0 : ℚ) > 0) := by
  constructor
  · rfl
  · norm_num

/-- C1: for a target with annotations A (free path) and B (path with
fixed head requiring A): when A's sequence is empty, selecting B reports
A as a missing requirement and disables editing of B — clicks are
ignored and no fixed point is installed; once A's sequence is non-empty,
selecting B invokes the derivation function with (target, {A: A's
sequence}), installs its result as B's fixed head, and the first push on
the empty B produces exactly [fixed_head, new_point]. -/
theorem refresh_fixed_head_scenario
    (dfn : String → List (String × PointSeq) → Except String Point)
    (target : String) (p : FigurePanel) (xs : PointSeq) (fp x : Point)
    (u v : ℚ)
    (hxs : xs ≠ []) (hcalc : dfn target [("A", xs)] = Except.ok fp) :
    (∃ p1, refresh_figure (cfgAB dfn) target
        [("A", some []), ("B", some [])] "B" p = some p1 ∧
      p1.message = some "The following annotations are required:\n  A" ∧
      p1.ignore_input = true ∧
      fixed_head p1 "B" = none ∧
      on_mouse_click p1 u v = some p1) ∧
    (∃ p2 p3, refresh_figure (cfgAB dfn) target
        [("A", some xs), ("B", some [])] "B" p = some p2 ∧
      p2.message = none ∧
      p2.ignore_input = false ∧
      fixed_head p2 "B" = some fp ∧
      push_point p2 x = some p3 ∧
      aget p3.annotations "B" = some [fp, x]) := by
  constructor
  · exact ⟨_, rfl, rfl, rfl, rfl, rfl⟩
  · obtain ⟨a, as, rfl⟩ := List.exists_cons_of_ne_nil hxs
    refine ⟨{ p with
        annotations := [("A", some (a :: as)), ("B", some [])],
        annotation_types := some (annotationTypesOf (cfgAB dfn)),
        ignore_input := false,
        fixed_heads := some (fun n => if n = "B" then some fp else none),
        fixed_tails := some (fun n => if n = "B" then none else none),
        foreground := some "B",
        message := none }, _, ?_, rfl, rfl, rfl, rfl, rfl⟩
    simp [refresh_figure, cfgAB, aget, dependsOn, collectReqs, evalFixed,
      annotationTypesOf, List.lookup_cons, hcalc, Except.map]

theorem refresh_fixed_head_scenario_witness :
    annAfter ((refresh_figure (cfgAB demoDerive) "T"
        [("A", some [((1 : ℚ), (1 : ℚ)), ((2 : ℚ), (2 : ℚ))]),
         ("B", some [])] "B" testPanel).bind
      (fun q => push_point q ((3 : ℚ), (3 : ℚ)))) "B"
      = some (some [((7 : ℚ), (8 : ℚ)), ((3 : ℚ), (3 : ℚ))]) := by
  obtain ⟨-, p2, p3, hr, -, -, -, hpush, hag⟩ :=
    refresh_fixed_head_scenario demoDerive "T" testPanel
      [(1, 1), (2, 2)] (7, 8) (3, 3) 0 0 (by simp) rfl
  rw [hr]
  show annAfter (push_point p2 ((3 : ℚ), (3 : ℚ))) "B" = _
  rw [hpush]
  simp [annAfter, hag]

end CortexAnnotate
